import Mathlib

/-!
Shallow embedding of the download-job orchestration core of `src/server.py`
(a single-file Python media-clip download server).

Conventions of the embedding:
* Python strings are modelled as `String` / `List Char`; the byte-level
  operations (`strip`, `split`, substring containment, the two progress
  regexes) are implemented directly over `List Char` with the semantics of
  the CPython operations they model, restricted to ASCII whitespace/digits.
* Python `float` values are modelled as exact rationals carried as an
  unreduced pair (numerator `Int`, denominator `Nat`); all arithmetic the
  source performs on these values (`acc*60 + part`, subtraction, `x/y*100`,
  comparison with `100`, one-decimal formatting) is implemented on the pairs
  and bridged to `Rat` by `PyF.toRat`.  Binary floating-point rounding error
  is outside the modelled fragment.
* The filesystem is modelled as a list of file basenames inside the download
  directory; `os.remove` failures are modelled by a failure predicate.
* The job registry (`active_downloads_info`) is modelled as an association
  list from id to status record.
-/

/-! ### Character classes and basic list utilities -/

/-- ASCII whitespace, as matched by Python `str.strip` and the regex class
`\s` (the unicode whitespace accepted by CPython beyond ASCII is outside the
modelled fragment). -/
def isSpaceC (c : Char) : Bool :=
  c = ' ' || c = '\t' || c = '\n' || c = '\r' || c = '\x0b' || c = '\x0c'

/-- ASCII decimal digit, regex class `\d` restricted to ASCII. -/
def isDigitC (c : Char) : Bool :=
  '0' ≤ c && c ≤ '9'

/-- Python `str.strip()` on a character list: drop leading and trailing
whitespace. -/
def pyStrip (cs : List Char) : List Char :=
  ((cs.dropWhile isSpaceC).reverse.dropWhile isSpaceC).reverse

/-- Python substring containment `p in s`. -/
def containsSub (p : List Char) : List Char → Bool
  | [] => p.isPrefixOf ([] : List Char)
  | c :: rest => p.isPrefixOf (c :: rest) || containsSub p rest

/-- Python `s.split(':')` (single-character separator): always returns at
least one group, with empty groups kept. -/
def splitColon : List Char → List (List Char)
  | [] => [[]]
  | c :: cs =>
    let r := splitColon cs
    if c = ':' then [] :: r
    else
      match r with
      | [] => [[c]]
      | g :: gs => (c :: g) :: gs

/-- Value of a list of ASCII digit characters read in base 10. -/
def digitsToNat (ds : List Char) : Nat :=
  ds.foldl (fun a c => a * 10 + (c.toNat - 48)) 0

/-- Decimal digits of `n`, via explicit fuel so that the kernel can reduce
it (`fuel = n + 1` always suffices). -/
def natDigitsF : Nat → Nat → List Char
  | 0, _ => []
  | fuel + 1, n =>
    if n < 10 then [Nat.digitChar n]
    else natDigitsF fuel (n / 10) ++ [Nat.digitChar (n % 10)]

/-- Decimal representation of a natural number. -/
def natDigits (n : Nat) : List Char :=
  natDigitsF (n + 1) n

/-! ### Exact rationals standing for Python floats -/

/-- A Python `float` value, modelled as the exact rational
`num / den` carried unreduced.  Every value the model constructs has a
positive denominator. -/
structure PyF where
  num : Int
  den : Nat
deriving DecidableEq

/-- The rational value of a `PyF`. -/
def PyF.toRat (p : PyF) : Rat := (p.num : Rat) / (p.den : Rat)

/-- The float `0.0`. -/
def PyF.zero : PyF := ⟨0, 1⟩

/-- Strict positivity test, as used by `if total_duration_secs > 0:`
(sound when the denominator is positive, which holds for every value the
model constructs). -/
def PyF.pos (p : PyF) : Bool := 0 < p.num

/-- Exact subtraction `a - b` (line `total_duration_secs = e_sec - s_sec`). -/
def PyF.sub (a b : PyF) : PyF := ⟨a.num * b.den - b.num * a.den, a.den * b.den⟩

/-- The fold step `acc = acc * 60 + v` of `parse_time_str`. -/
def PyF.mul60add (acc v : PyF) : PyF :=
  ⟨acc.num * 60 * v.den + v.num * acc.den, acc.den * v.den⟩

/-- Exact `curr / total * 100` (the ffmpeg-progress percentage); only used
when `total.pos`, so `total.num.toNat` is the genuine numerator. -/
def PyF.pct (curr total : PyF) : PyF :=
  ⟨curr.num * total.den * 100, curr.den * total.num.toNat⟩

/-- Comparison `p > 100` (sound when the denominator is positive). -/
def PyF.gt100 (p : PyF) : Bool := 100 * (p.den : Int) < p.num

/-- The clamp `if pct > 100: pct = 100`. -/
def PyF.clamp100 (p : PyF) : PyF := if p.gt100 then ⟨100, 1⟩ else p

/-- Round `p * 10` to the nearest integer, ties to even — the rounding of
CPython `format(x, '.1f')` on the exact rational value. -/
def PyF.round10 (p : PyF) : Int :=
  let N : Int := p.num * 10
  let d : Int := (p.den : Int)
  let f : Int := Int.fdiv N d
  let r : Int := N - f * d
  if d < 2 * r then f + 1
  else if 2 * r < d then f
  else if f % 2 = 0 then f else f + 1

/-- Python `f"{p:.1f}"`: one-decimal fixed-point formatting (on the exact
rational value of `p`). -/
def PyF.fmtOneDec (p : PyF) : List Char :=
  let n10 : Int := p.round10
  let sgn : List Char := if n10 < 0 then ['-'] else []
  let m : Nat := n10.natAbs
  sgn ++ natDigits (m / 10) ++ ['.', Nat.digitChar (m % 10)]

/-! ### Python float literal parsing (`float(part)`) -/

/-- Digits read as an optional-exponent suffix `e±ddd`; returns the signed
exponent, or fails. -/
def readExp : List Char → Option Int
  | [] => some 0
  | c :: rest =>
    if c = 'e' || c = 'E' then
      match rest with
      | '+' :: ds => if ds ≠ [] && ds.all isDigitC then some (digitsToNat ds) else none
      | '-' :: ds => if ds ≠ [] && ds.all isDigitC then some (-(digitsToNat ds : Int)) else none
      | ds => if ds ≠ [] && ds.all isDigitC then some (digitsToNat ds) else none
    else none

/-- CPython `float(s)` on finite decimal literals: optional surrounding
whitespace, optional sign, decimal mantissa with optional fraction part,
optional exponent.  Returns `none` where `float` raises `ValueError`.
(`inf`/`nan` literals and underscore separators are outside the modelled
fragment.) -/
def pyFloat? (cs0 : List Char) : Option PyF :=
  let cs1 := pyStrip cs0
  let signed : Int × List Char :=
    match cs1 with
    | '+' :: r => (1, r)
    | '-' :: r => (-1, r)
    | r => (1, r)
  let sgn := signed.1
  let ipart := signed.2.takeWhile isDigitC
  let rest1 := signed.2.drop ipart.length
  let fracAndRest : List Char × List Char :=
    match rest1 with
    | '.' :: r => (r.takeWhile isDigitC, r.drop (r.takeWhile isDigitC).length)
    | r => ([], r)
  let fpart := fracAndRest.1
  if ipart = [] && fpart = [] then none
  else
    match readExp fracAndRest.2 with
    | none => none
    | some e =>
      let mantNum : Int := sgn * (digitsToNat ipart * 10 ^ fpart.length + digitsToNat fpart)
      let mantDen : Nat := 10 ^ fpart.length
      if 0 ≤ e then some ⟨mantNum * 10 ^ e.toNat, mantDen⟩
      else some ⟨mantNum, mantDen * 10 ^ (-e).toNat⟩

/-! ### parse_time_str -/

/-- Parse every group with `float`, failing as soon as one group fails —
the sequential `for part in parts` loop under the `try` of
`parse_time_str`. -/
def parseParts : List (List Char) → Option (List PyF)
  | [] => some []
  | g :: gs =>
    match pyFloat? g, parseParts gs with
    | some v, some vs => some (v :: vs)
    | _, _ => none

/-- `parse_time_str` (src/server.py lines 54-63): split on `:` and fold the
groups left-to-right as `seconds = seconds * 60 + float(part)`; any group
that `float` rejects makes the whole call return `0.0`. -/
def parse_time_str (t : String) : PyF :=
  match parseParts (splitColon t.data) with
  | some vs => vs.foldl PyF.mul60add PyF.zero
  | none => PyF.zero

-- Quick sanity examples (kernel-evaluated).
example : parse_time_str "00:02:00" = ⟨120, 1⟩ := by decide
example : parse_time_str "abc" = ⟨0, 1⟩ := by decide
example : parse_time_str "1:2:3.5" = ⟨37235, 10⟩ := by decide
example : pyFloat? " 30.09 ".data = some ⟨3009, 100⟩ := by decide
example : pyFloat? "1e2".data = some ⟨100, 1⟩ := by decide
example : pyFloat? "".data = none := by decide
example : PyF.fmtOneDec (PyF.pct ⟨30, 1⟩ ⟨60, 1⟩) = ['5', '0', '.', '0'] := by decide
example : PyF.fmtOneDec ⟨100, 1⟩ = ['1', '0', '0', '.', '0'] := by decide
example : PyF.fmtOneDec ⟨-25, 100⟩ = ['-', '0', '.', '2'] := by decide

/-! ### The two progress regexes

`PROGRESS_REGEX = \[download\]\s+(\d+\.?\d*)%\s+of\s+~?(\S+)\s+at\s+(.+?)\s+ETA\s+(\S+)`
`FFMPEG_REGEX   = size=\s*(\S+)\s+time=\s*(\S+).*?speed=\s*(\S+)`

Both are used with `re.search`.  They are implemented below as direct
backtracking matchers specialized to these two patterns, with Python
leftmost-match / greedy / lazy semantics. -/

/-- Match a literal, returning the remaining input. -/
def litTok (p cs : List Char) : Option (List Char) :=
  if p.isPrefixOf cs then some (cs.drop p.length) else none

/-- Greedy `C+` for a character class `f`: the maximal nonempty run and the
remaining input.  (For the runs used below — `\s+` before a literal the run
cannot start, and `\S+` before `\s` — maximal munch is exactly the
backtracking semantics.) -/
def tok1 (f : Char → Bool) (cs : List Char) : Option (List Char × List Char) :=
  let g := cs.takeWhile f
  if g = [] then none else some (g, cs.drop g.length)

/-- Greedy `\d+\.?\d*` (group 1 of `PROGRESS_REGEX`); the following literal
`%` in the pattern can never be rescued by giving characters back, so
maximal munch is exact. -/
def numTok (cs : List Char) : Option (List Char × List Char) :=
  match tok1 isDigitC cs with
  | none => none
  | some (d1, rest) =>
    match rest with
    | '.' :: rest2 =>
      let d2 := rest2.takeWhile isDigitC
      some (d1 ++ '.' :: d2, rest2.drop d2.length)
    | _ => some (d1, rest)

/-- Tail `\s+ETA\s+(\S+)` of `PROGRESS_REGEX`: returns group 4. -/
def etaTail (cs : List Char) : Option (List Char) :=
  match tok1 isSpaceC cs with
  | none => none
  | some (_, r1) =>
    match litTok "ETA".data r1 with
    | none => none
    | some r2 =>
      match tok1 isSpaceC r2 with
      | none => none
      | some (_, r3) =>
        match tok1 (fun c => !isSpaceC c) r3 with
        | none => none
        | some (g4, _) => some g4

/-- Lazy `(.+?)` followed by `etaTail`: groups 3 and 4 of `PROGRESS_REGEX`.
The group takes as few characters as possible (at least one, none of them a
newline) such that the tail matches right after it. -/
def lazyDotPlus : List Char → Option (List Char × List Char)
  | [] => none
  | c :: cs =>
    if c = '\n' then none
    else
      match etaTail cs with
      | some g4 => some ([c], g4)
      | none =>
        match lazyDotPlus cs with
        | some (g3, g4) => some (c :: g3, g4)
        | none => none

/-- Part `(\S+)\s+at\s+(.+?)\s+ETA\s+(\S+)` of `PROGRESS_REGEX`: returns
groups 2, 3 and 4. -/
def sizeAtTail (cs : List Char) : Option (List Char × List Char × List Char) :=
  match tok1 (fun c => !isSpaceC c) cs with
  | none => none
  | some (g2, r1) =>
    match tok1 isSpaceC r1 with
    | none => none
    | some (_, r2) =>
      match litTok "at".data r2 with
      | none => none
      | some r3 =>
        match tok1 isSpaceC r3 with
        | none => none
        | some (_, r4) =>
          match lazyDotPlus r4 with
          | some (g3, g4) => some (g2, g3, g4)
          | none => none

/-- Anchored match of the whole of `PROGRESS_REGEX` at the start of the
input, returning the four groups.  The optional `~?` backtracks: the branch
consuming `~` is preferred, falling back to the branch that leaves it for
group 2. -/
def progressMatchAt (cs : List Char) : Option (List Char × List Char × List Char × List Char) :=
  (litTok "[download]".data cs).bind fun r1 =>
  (tok1 isSpaceC r1).bind fun (_, r2) =>
  (numTok r2).bind fun (g1, r3) =>
  (litTok ['%'] r3).bind fun r4 =>
  (tok1 isSpaceC r4).bind fun (_, r5) =>
  (litTok "of".data r5).bind fun r6 =>
  (tok1 isSpaceC r6).bind fun (_, r7) =>
  let tailRes :=
    match r7 with
    | '~' :: rest =>
      match sizeAtTail rest with
      | some g => some g
      | none => sizeAtTail r7
    | _ => sizeAtTail r7
  tailRes.map fun (g2, g3, g4) => (g1, g2, g3, g4)

/-- `re.search` with `PROGRESS_REGEX`: the leftmost starting position at
which the anchored match succeeds. -/
def progressSearch (cs : List Char) : Option (List Char × List Char × List Char × List Char) :=
  match progressMatchAt cs with
  | some g => some g
  | none =>
    match cs with
    | [] => none
    | _ :: rest => progressSearch rest

/-- The `\s*(\S+)` that follows `speed=` in `FFMPEG_REGEX`: group 3. -/
def afterSpeed (cs : List Char) : Option (List Char) :=
  match tok1 (fun c => !isSpaceC c) (cs.dropWhile isSpaceC) with
  | none => none
  | some (g3, _) => some g3

/-- Lazy `.*?speed=\s*(\S+)`: scan forward (over non-newline characters)
for the nearest `speed=` whose suffix also matches, returning group 3. -/
def speedScan : List Char → Option (List Char)
  | [] => none
  | c :: rest =>
    match (if "speed=".data.isPrefixOf (c :: rest) then afterSpeed ((c :: rest).drop 6) else none) with
    | some g3 => some g3
    | none => if c = '\n' then none else speedScan rest

/-- Greedy group 2 `(\S+)` of `FFMPEG_REGEX` with backtracking: try the
maximal nonempty non-space run first, then shorter and shorter candidates,
each followed by the lazy `.*?speed=\s*(\S+)` scan over what was given
back. -/
def timeTryK (run rest0 : List Char) : Nat → Option (List Char × List Char)
  | 0 => none
  | k + 1 =>
    match speedScan (run.drop (k + 1) ++ rest0) with
    | some g3 => some (run.take (k + 1), g3)
    | none => timeTryK run rest0 k

/-- Anchored match of the whole of `FFMPEG_REGEX` at the start of the
input, returning the three groups (size, time, speed). -/
def ffmpegMatchAt (cs : List Char) : Option (List Char × List Char × List Char) :=
  (litTok "size=".data cs).bind fun r1 =>
  (tok1 (fun c => !isSpaceC c) (r1.dropWhile isSpaceC)).bind fun (g1, r3) =>
  (tok1 isSpaceC r3).bind fun (_, r4) =>
  (litTok "time=".data r4).bind fun r5 =>
  let r6 := r5.dropWhile isSpaceC
  let run := r6.takeWhile (fun c => !isSpaceC c)
  let rest0 := r6.drop run.length
  if run = [] then none
  else (timeTryK run rest0 run.length).map fun (g2, g3) => (g1, g2, g3)

/-- `re.search` with `FFMPEG_REGEX`. -/
def ffmpegSearch (cs : List Char) : Option (List Char × List Char × List Char) :=
  match ffmpegMatchAt cs with
  | some g => some g
  | none =>
    match cs with
    | [] => none
    | _ :: rest => ffmpegSearch rest

/-- Build a `String` back from a matched group. -/
def strOf (cs : List Char) : String := ⟨cs⟩

-- Matcher sanity examples against real yt-dlp / ffmpeg output shapes.
example :
    progressSearch (pyStrip "[download]  12.5% of ~10.00MiB at  1.00MiB/s ETA 00:42".data)
      = some ("12.5".data, "10.00MiB".data, "1.00MiB/s".data, "00:42".data) := by decide
example :
    ffmpegSearch "frame=  100 fps=25 q=1.0 size=    1024kB time=00:00:30.00 bitrate=5505.4kbits/s speed=1.73x".data
      = some ("1024kB".data, "00:00:30.00".data, "1.73x".data) := by decide
example : progressSearch "frame= size= time= speed=".data = none := by decide
example : ffmpegSearch "[download] 100% of 3MiB".data = none := by decide

/-! ### Job status records and the per-line update (lines 279-340) -/

/-- The four values the `status` field of a registry record ever takes. -/
inductive Status
  | downloading
  | finished
  | error
  | cancelled
deriving DecidableEq

/-- One entry of `active_downloads_info`.  `size` is `none` until the first
progress line sets it (the Python dict starts without a `size` key). -/
structure DownloadInfo where
  id : String
  title : String
  status : Status
  percent : String
  size : Option String
  speed : String
  eta : String
deriving DecidableEq

/-- The record registered at submission (lines 279-286). -/
def initialInfo (id title : String) : DownloadInfo :=
  ⟨id, title, Status.downloading, "0%", none, "0.00MiB/s", "--:--"⟩

/-- The body of the supervision loop for one output line (lines 308-340):
strip the line, try `PROGRESS_REGEX` first, otherwise the `frame=` branch
with `FFMPEG_REGEX`, otherwise leave the record unchanged.
`total` is `total_duration_secs`. -/
def processLine (total : PyF) (line : String) (r : DownloadInfo) : DownloadInfo :=
  let ls := pyStrip line.data
  match progressSearch ls with
  | some (p, sz, sp, e) =>
    { r with percent := strOf p ++ "%", size := some (strOf sz),
             speed := strOf (pyStrip sp), eta := strOf e }
  | none =>
    if containsSub "frame=".data ls then
      match ffmpegSearch ls with
      | some (sz, t, sp) =>
        { r with
          percent :=
            if total.pos then
              strOf (PyF.fmtOneDec (PyF.clamp100 (PyF.pct (parse_time_str (strOf t)) total))) ++ "%"
            else "indeterminate",
          size := some (strOf sz),
          speed := strOf (pyStrip sp) ++ "x",
          eta := "Processing" }
      | none => { r with percent := "indeterminate" }
    else r

/-- Search of `PROGRESS_REGEX` on the stripped line, with the groups as
strings — the shape classification the supervision loop performs. -/
def progressSearchS (line : String) : Option (String × String × String × String) :=
  (progressSearch (pyStrip line.data)).map fun g =>
    (strOf g.1, strOf g.2.1, strOf g.2.2.1, strOf g.2.2.2)

/-- Search of `FFMPEG_REGEX` on the stripped line, with the groups as
strings. -/
def ffmpegSearchS (line : String) : Option (String × String × String) :=
  (ffmpegSearch (pyStrip line.data)).map fun g => (strOf g.1, strOf g.2.1, strOf g.2.2)

/-- The `"frame=" in line_str` test on the stripped line. -/
def containsFrame (line : String) : Bool :=
  containsSub "frame=".data (pyStrip line.data)

/-! ### Time range and expected duration (lines 259-275) -/

/-- Python truthiness of `data.get('start_time')` / `data.get('end_time')`:
a missing key or an empty string is falsy. -/
def truthyS : Option String → Bool
  | none => false
  | some s => s != ""

/-- Effective start: defaulted to `"00:00:00"` when absent or empty. -/
def effStart (st : Option String) : String :=
  if truthyS st then st.getD "" else "00:00:00"

/-- Effective end: defaulted to the open-ended sentinel `"inf"`. -/
def effEnd (en : Option String) : String :=
  if truthyS en then en.getD "" else "inf"

/-- The `--download-sections` argument `*start-end`. -/
def sectionArg (st en : Option String) : String :=
  "*" ++ effStart st ++ "-" ++ effEnd en

/-- `total_duration_secs` as computed at lines 262-275: `0.0` unless a
range was requested with a non-open end, in which case it is
`parse_time_str(end) - parse_time_str(start)` (no clamping). -/
def expectedDuration (st en : Option String) : PyF :=
  if truthyS st || truthyS en then
    if effEnd en ≠ "inf" then
      (parse_time_str (effEnd en)).sub (parse_time_str (effStart st))
    else PyF.zero
  else PyF.zero

/-! ### Quality table and invocation (lines 241-277) -/

/-- The `'best'` format selector. -/
def bestFormat : String := "bestvideo[ext=mp4]+bestaudio[ext=m4a]/best[ext=mp4]/best"

/-- `quality_map` (lines 242-249). -/
def quality_map : List (String × String) :=
  [("best", bestFormat),
   ("1080p", "bestvideo[height<=1080][ext=mp4]+bestaudio[ext=m4a]/best[height<=1080][ext=mp4]"),
   ("720p", "bestvideo[height<=720][ext=mp4]+bestaudio[ext=m4a]/best[height<=720][ext=mp4]"),
   ("video_only", "bestvideo[ext=mp4]"),
   ("audio_best", "bestaudio[ext=m4a]/bestaudio"),
   ("audio_low", "worstaudio[ext=m4a]/worstaudio")]

/-- `quality_map.get(quality_setting, quality_map['best'])` (line 250). -/
def selectFormat (q : String) : String :=
  (quality_map.lookup q).getD bestFormat

/-- The full `yt-dlp` invocation (lines 252-277); `hasFFmpegExe` models the
`os.path.exists("ffmpeg.exe")` probe. -/
def buildCmd (hasFFmpegExe : Bool) (clip_id q url : String) (st en : Option String) : List String :=
  let base := ["yt-dlp", "--no-colors", "--newline", "-f", selectFormat q,
               "--write-thumbnail", "--convert-thumbnails", "jpg",
               "-o", "library/" ++ clip_id ++ ".%(ext)s"]
  let base := base ++ (if hasFFmpegExe then ["--ffmpeg-location", "."] else [])
  let base := base ++
    (if truthyS st || truthyS en then
      ["--download-sections", sectionArg st en, "--force-keyframes-at-cuts"]
    else [])
  base ++ [url]

/-! ### Finalize and cleanup (lines 342-390)

The download directory is modelled as the list of file basenames it
contains; `removeFailed f` models `os.remove(f)` raising (the exception the
cleanup loop swallows). -/

/-- Python `f.startswith(p)` / the glob `id*` on a basename. -/
def strPrefixed (p f : String) : Bool := p.data.isPrefixOf f.data

/-- Python `f.endswith(s)` on a basename. -/
def strSuffixed (s f : String) : Bool := s.data.reverse.isPrefixOf f.data.reverse

/-- The artifact scan of lines 346-348: glob `id.mp4`, fall back to glob
`id.*`, then drop the `.jpg`/`.json` sidecars. -/
def mediaScan (clip_id : String) (files : List String) : List String :=
  let found := files.filter (fun f => f == clip_id ++ ".mp4")
  let found := if found = [] then files.filter (fun f => strPrefixed (clip_id ++ ".") f) else found
  found.filter (fun f => !strSuffixed ".jpg" f && !strSuffixed ".json" f)

/-- Outcome of the post-loop part of `start_download_process`. -/
structure FinalState where
  status : Status
  metaWritten : Bool
  filename : String
  files : List String
deriving DecidableEq

/-- Lines 342-390 after the supervision loop has ended: wait (unless
cancelled), on exit code 0 scan for the artifact, write the `<id>.json`
metadata record and mark `finished`; on a nonzero exit mark `error`; then
the `finally` cleanup removes every file prefixed by the id when the
terminal status is `cancelled` or `error`, swallowing removal failures.
`st` is the registry status when the loop ended, `rc` the exit code. -/
def finalizeAndCleanup (clip_id : String) (st : Status) (rc : Int) (files : List String)
    (removeFailed : String → Bool) : FinalState :=
  let afterWait : FinalState :=
    if st ≠ Status.cancelled then
      if rc = 0 then
        let fname :=
          match mediaScan clip_id files with
          | [] => clip_id ++ ".mp4"
          | f :: _ => f
        ⟨Status.finished, true, fname, files ++ [clip_id ++ ".json"]⟩
      else ⟨Status.error, false, "", files⟩
    else ⟨st, false, "", files⟩
  if afterWait.status = Status.cancelled || afterWait.status = Status.error then
    { afterWait with
      files := afterWait.files.filter (fun f => !strPrefixed clip_id f || removeFailed f) }
  else afterWait

/-! ### delete_clip (lines 402-432) and the /api/delete handler -/

/-- `delete_clip`: requires the `<id>.json` metadata record to exist; when
the media file (the `filename` field read from the record, `metaFilename`)
exists, retry `os.remove` up to 20 times, sleeping on `PermissionError`
(`locked i` says attempt `i` raises); when every attempt fails, return
`False` with nothing removed.  On success remove the thumbnail
(best-effort) and the metadata record and return `True`. -/
def delete_clip (clip_id : String) (files : List String) (metaFilename : String)
    (locked : Nat → Bool) : Bool × List String :=
  if files.contains (clip_id ++ ".json") then
    if files.contains metaFilename then
      if (List.range 20).any (fun i => !locked i) then
        let files1 := files.erase metaFilename
        let files2 := files1.erase (clip_id ++ ".jpg")
        (true, files2.erase (clip_id ++ ".json"))
      else (false, files)
    else
      let files2 := files.erase (clip_id ++ ".jpg")
      (true, files2.erase (clip_id ++ ".json"))
  else (false, files)

/-- The `/api/delete` handler's response (lines 196-202): HTTP status and
payload, keyed on `delete_clip`'s boolean result. -/
def deleteResponse (ok : Bool) : Nat × String :=
  if ok then (200, "deleted") else (500, "Could not delete file (locked)")

/-! ### The /api/cancel handler (lines 159-169) -/

/-- The registry write of the `/api/cancel` handler: if the id is present
in `active_downloads_info`, set its status to `cancelled`
(unconditionally). -/
def markCancelled (reg : List (String × DownloadInfo)) (id : String) :
    List (String × DownloadInfo) :=
  reg.map fun p => if p.1 = id then (p.1, { p.2 with status := Status.cancelled }) else p

/-- Status of the record under `id`, if present. -/
def statusOf (reg : List (String × DownloadInfo)) (id : String) : Option Status :=
  (reg.lookup id).map DownloadInfo.status

/-- Join a list of groups with `':'` separators (the inverse direction of
`splitColon`, used to state what "splitting on colons" means). -/
def joinColon : List (List Char) → List Char
  | [] => []
  | [g] => g
  | g :: g' :: gs => g ++ ':' :: joinColon (g' :: gs)

/-! ## Bridge lemmas: pair arithmetic vs rational values -/

theorem PyF.zero_toRat : PyF.zero.toRat = 0 := by
  simp [PyF.zero, PyF.toRat]

theorem PyF.sub_toRat (a b : PyF) (ha : 0 < a.den) (hb : 0 < b.den) :
    (a.sub b).toRat = a.toRat - b.toRat := by
  have ha' : ((a.den : Rat)) ≠ 0 := Nat.cast_ne_zero.mpr ha.ne'
  have hb' : ((b.den : Rat)) ≠ 0 := Nat.cast_ne_zero.mpr hb.ne'
  unfold PyF.sub PyF.toRat
  push_cast
  field_simp
  ring

theorem PyF.mul60add_toRat (acc v : PyF) (ha : 0 < acc.den) (hv : 0 < v.den) :
    (acc.mul60add v).toRat = acc.toRat * 60 + v.toRat := by
  have ha' : ((acc.den : Rat)) ≠ 0 := Nat.cast_ne_zero.mpr ha.ne'
  have hv' : ((v.den : Rat)) ≠ 0 := Nat.cast_ne_zero.mpr hv.ne'
  unfold PyF.mul60add PyF.toRat
  push_cast
  field_simp
  try ring

theorem PyF.pos_iff (p : PyF) (hd : 0 < p.den) : p.pos = true ↔ 0 < p.toRat := by
  have hd' : (0 : Rat) < (p.den : Rat) := by exact_mod_cast hd
  unfold PyF.pos PyF.toRat
  rw [decide_eq_true_eq, lt_div_iff₀ hd', zero_mul]
  exact Int.cast_pos.symm

theorem PyF.gt100_iff (p : PyF) (hd : 0 < p.den) : p.gt100 = true ↔ 100 < p.toRat := by
  have hd' : (0 : Rat) < (p.den : Rat) := by exact_mod_cast hd
  unfold PyF.gt100 PyF.toRat
  rw [decide_eq_true_eq, lt_div_iff₀ hd']
  constructor
  · intro h
    exact_mod_cast h
  · intro h
    exact_mod_cast h

theorem PyF.pct_toRat (curr total : PyF) (hc : 0 < curr.den) (hd : 0 < total.den)
    (hn : 0 < total.num) :
    (curr.pct total).toRat = curr.toRat / total.toRat * 100 := by
  have hc' : ((curr.den : Rat)) ≠ 0 := Nat.cast_ne_zero.mpr hc.ne'
  have hd' : ((total.den : Rat)) ≠ 0 := Nat.cast_ne_zero.mpr hd.ne'
  have hn' : ((total.num : Rat)) ≠ 0 := by
    exact_mod_cast hn.ne'
  have htn : ((total.num.toNat : Rat)) = ((total.num : Int) : Rat) := by
    exact_mod_cast congrArg (fun z : Int => (z : Rat)) (Int.toNat_of_nonneg hn.le)
  unfold PyF.pct PyF.toRat
  push_cast
  rw [htn]
  field_simp
  try ring

theorem PyF.clamp100_toRat (p : PyF) (hd : 0 < p.den) :
    p.clamp100.toRat = min (p.toRat) 100 := by
  unfold PyF.clamp100
  by_cases h : p.gt100 = true
  · have h100 : 100 < p.toRat := (PyF.gt100_iff p hd).mp h
    rw [if_pos h, min_eq_right h100.le]
    norm_num [PyF.toRat]
  · have h100 : ¬(100 < p.toRat) := fun hc => h ((PyF.gt100_iff p hd).mpr hc)
    rw [if_neg h, min_eq_left (le_of_not_lt h100)]

/-! ## Denominator positivity invariants -/

theorem pyFloat?_den_pos {cs : List Char} {p : PyF} (h : pyFloat? cs = some p) :
    0 < p.den := by
  simp only [pyFloat?] at h
  repeat' split at h
  all_goals simp_all
  all_goals subst h
  all_goals positivity

theorem parseParts_den_pos :
    ∀ (l : List (List Char)) (vs : List PyF), parseParts l = some vs →
      ∀ v ∈ vs, 0 < v.den := by
  intro l
  induction l with
  | nil =>
    intro vs h v hv
    simp [parseParts] at h
    subst h
    simp at hv
  | cons c l ih =>
    intro vs h v hv
    unfold parseParts at h
    split at h
    · next p vs' hp hvs' =>
      injection h with h'
      subst h'
      rcases List.mem_cons.mp hv with h1 | h1
      · subst h1
        exact pyFloat?_den_pos hp
      · exact ih vs' hvs' v h1
    · exact absurd h (by simp)

theorem foldl_mul60add_den_pos :
    ∀ (vs : List PyF) (acc : PyF), 0 < acc.den → (∀ v ∈ vs, 0 < v.den) →
      0 < (vs.foldl PyF.mul60add acc).den := by
  intro vs
  induction vs with
  | nil =>
    intro acc ha _
    simpa using ha
  | cons v vs ih =>
    intro acc ha hv
    rw [List.foldl_cons]
    exact ih _ (Nat.mul_pos ha (hv v (List.mem_cons_self v vs)))
      fun w hw => hv w (List.mem_cons_of_mem v hw)

theorem foldl_mul60add_toRat :
    ∀ (vs : List PyF) (acc : PyF), 0 < acc.den → (∀ v ∈ vs, 0 < v.den) →
      (vs.foldl PyF.mul60add acc).toRat
        = (vs.map PyF.toRat).foldl (fun a r => a * 60 + r) acc.toRat := by
  intro vs
  induction vs with
  | nil =>
    intro acc _ _
    simp
  | cons v vs ih =>
    intro acc ha hv
    have hvden : 0 < v.den := hv v (List.mem_cons_self v vs)
    rw [List.foldl_cons, List.map_cons, List.foldl_cons,
      ih _ (Nat.mul_pos ha hvden) (fun w hw => hv w (List.mem_cons_of_mem v hw)),
      PyF.mul60add_toRat acc v ha hvden]

theorem parse_time_str_den_pos (t : String) : 0 < (parse_time_str t).den := by
  unfold parse_time_str
  split
  · next vs h =>
    exact foldl_mul60add_den_pos vs PyF.zero (by simp [PyF.zero])
      (parseParts_den_pos _ vs h)
  · simp [PyF.zero]

theorem expectedDuration_den_pos (st en : Option String) :
    0 < (expectedDuration st en).den := by
  unfold expectedDuration
  split
  · split
    · exact Nat.mul_pos (parse_time_str_den_pos _) (parse_time_str_den_pos _)
    · simp [PyF.zero]
  · simp [PyF.zero]

/-! ## Splitting lemmas -/

theorem splitColon_noColon :
    ∀ g : List Char, (∀ c ∈ g, c ≠ ':') → splitColon g = [g] := by
  intro g
  induction g with
  | nil => intro _; rfl
  | cons c g ih =>
    intro h
    have hc : c ≠ ':' := h c (List.mem_cons_self c g)
    have hr : splitColon g = [g] := ih fun x hx => h x (List.mem_cons_of_mem c hx)
    simp [splitColon, hr, hc]

theorem splitColon_append_colon :
    ∀ (g cs : List Char), (∀ c ∈ g, c ≠ ':') →
      splitColon (g ++ ':' :: cs) = g :: splitColon cs := by
  intro g
  induction g with
  | nil => intro cs _; simp [splitColon]
  | cons c g ih =>
    intro cs h
    have hc : c ≠ ':' := h c (List.mem_cons_self c g)
    have hr := ih cs fun x hx => h x (List.mem_cons_of_mem c hx)
    simp [splitColon, hr, hc]

theorem splitColon_joinColon :
    ∀ gs : List (List Char), gs ≠ [] → (∀ g ∈ gs, ∀ c ∈ g, c ≠ ':') →
      splitColon (joinColon gs) = gs := by
  intro gs
  induction gs with
  | nil => intro h _; exact absurd rfl h
  | cons g rest ih =>
    intro _ h
    match rest with
    | [] =>
      exact splitColon_noColon g (h g (List.mem_cons_self g []))
    | g' :: rest' =>
      have h1 : joinColon (g :: g' :: rest') = g ++ ':' :: joinColon (g' :: rest') := rfl
      rw [h1, splitColon_append_colon g _ (h g (List.mem_cons_self g _)),
        ih (by simp) fun x hx => h x (List.mem_cons_of_mem g hx)]

/-! ## Claim theorems -/

/-- C5: for every time string, parsing splits on colons and folds the
numeric groups left-to-right as `acc = acc*60 + nextGroup` (so `"00:02:00"`
parses to `120.0`), and for every malformed string the parser returns `0.0`
rather than raising. -/
theorem parse_time_str_spec :
    (∀ gs : List (List Char), gs ≠ [] → (∀ g ∈ gs, ∀ c ∈ g, c ≠ ':') →
      splitColon (joinColon gs) = gs)
    ∧ (∀ (t : String) (vs : List PyF), parseParts (splitColon t.data) = some vs →
        (parse_time_str t).toRat = (vs.map PyF.toRat).foldl (fun a r => a * 60 + r) 0)
    ∧ (∀ t : String, parseParts (splitColon t.data) = none → parse_time_str t = PyF.zero)
    ∧ (parse_time_str "00:02:00").toRat = 120 := by
  refine ⟨splitColon_joinColon, ?_, ?_, ?_⟩
  · intro t vs h
    unfold parse_time_str
    split
    · next vs' h' =>
      rw [h] at h'
      injection h' with h''
      subst h''
      rw [foldl_mul60add_toRat vs PyF.zero (by simp [PyF.zero]) (parseParts_den_pos _ vs h),
        PyF.zero_toRat]
    · next h' =>
      rw [h] at h'
      cases h'
  · intro t h
    unfold parse_time_str
    split
    · next vs' h' =>
      rw [h] at h'
      cases h'
    · rfl
  · have h : parse_time_str "00:02:00" = ⟨120, 1⟩ := by decide
    rw [h]
    norm_num [PyF.toRat]

/-- Witness for C5 at concrete inputs. -/
theorem parse_time_str_spec_witness :
    splitColon (joinColon [['0'], ['0', '2']]) = [['0'], ['0', '2']]
    ∧ (parse_time_str "0:02").toRat
        = ([PyF.mk 0 1, PyF.mk 2 1].map PyF.toRat).foldl (fun a r => a * 60 + r) 0
    ∧ parse_time_str "abc" = PyF.zero :=
  ⟨parse_time_str_spec.1 [['0'], ['0', '2']] (by decide) (by decide),
   parse_time_str_spec.2.1 "0:02" [PyF.mk 0 1, PyF.mk 2 1] (by decide),
   parse_time_str_spec.2.2.1 "abc" (by decide)⟩

/-- C4 counterexample: with `start = "00:02:00"` and `end = "00:01:00"`
(both given, end not open-ended) the code computes
`expectedDurationSeconds = -60`, not the `0` the claimed clamping would
give: `total_duration_secs = e_sec - s_sec` at line 275 has no clamp. -/
theorem expectedDuration_clamp_cex :
    (expectedDuration (some "00:02:00") (some "00:01:00")).toRat = -60
    ∧ (expectedDuration (some "00:02:00") (some "00:01:00")).toRat ≠ 0 := by
  have h : expectedDuration (some "00:02:00") (some "00:01:00") = ⟨-60, 1⟩ := by decide
  rw [h]
  norm_num [PyF.toRat]

/-- C4 amended: with both `start` and `end` given (end neither open-ended
nor the literal `"inf"`), `expectedDurationSeconds` equals
`parse(end) - parse(start)` with no clamping (it may be negative); when the
end is open-ended (absent or empty) — in particular when neither bound is
given — it is `0` (unknown). -/
theorem expectedDuration_spec :
    (∀ s e : String, s ≠ "" → e ≠ "" → e ≠ "inf" →
      (expectedDuration (some s) (some e)).toRat
        = (parse_time_str e).toRat - (parse_time_str s).toRat)
    ∧ (∀ (st : Option String) (en : Option String), truthyS en = false →
        expectedDuration st en = PyF.zero) := by
  constructor
  · intro s e hs he hinf
    unfold expectedDuration
    have hs' : (s != "") = true := bne_iff_ne.mpr hs
    have he' : (e != "") = true := bne_iff_ne.mpr he
    simp only [truthyS, effStart, effEnd, Option.getD_some, hs', he', if_pos,
      Bool.true_or, if_true]
    simp [hinf]
    exact PyF.sub_toRat _ _ (parse_time_str_den_pos e) (parse_time_str_den_pos s)
  · intro st en hen
    unfold expectedDuration
    by_cases hst : truthyS st = true
    · simp [hst, effEnd, hen]
    · simp [Bool.not_eq_true] at hst
      simp [hst, hen]

/-- Witness for C4's amended theorem at concrete inputs. -/
theorem expectedDuration_spec_witness :
    (expectedDuration (some "00:01:00") (some "00:02:00")).toRat
      = (parse_time_str "00:02:00").toRat - (parse_time_str "00:01:00").toRat
    ∧ expectedDuration none none = PyF.zero :=
  ⟨expectedDuration_spec.1 "00:01:00" "00:02:00" (by decide) (by decide) (by decide),
   expectedDuration_spec.2 none none (by decide)⟩

/-- C9: a submitted quality setting that is not one of the six known keys
still builds the very same invocation as `'best'` — the lookup falls back
to the `'best'` format selector and nothing rejects the submission. -/
theorem selectFormat_unknown (q : String) (h : quality_map.lookup q = none) :
    selectFormat q = bestFormat
    ∧ ∀ (hasFF : Bool) (id url : String) (st en : Option String),
        buildCmd hasFF id q url st en = buildCmd hasFF id "best" url st en := by
  have hq : selectFormat q = bestFormat := by
    unfold selectFormat
    rw [h]
    rfl
  refine ⟨hq, ?_⟩
  intro hasFF id url st en
  unfold buildCmd
  rw [hq, show selectFormat "best" = bestFormat from by decide]

/-- Witness for C9 with the unknown quality key `"4k"`. -/
theorem selectFormat_unknown_witness :
    selectFormat "4k" = bestFormat
    ∧ buildCmd false "j1" "4k" "https://example" none none
        = buildCmd false "j1" "best" "https://example" none none :=
  ⟨(selectFormat_unknown "4k" (by decide)).1,
   (selectFormat_unknown "4k" (by decide)).2 false "j1" "https://example" none none⟩

/-- C10: on exit code 0 with an artifact scan that finds no media file
(no `<id>.mp4` and no other `<id>.*` file after excluding the `.jpg` and
`.json` sidecars), the metadata record is still written, the job is marked
finished, and the recorded filename defaults to `<id>.mp4` even though no
such file exists. -/
theorem finishNoMedia_defaults (id : String) (files : List String) (fails : String → Bool)
    (h : mediaScan id files = []) :
    (finalizeAndCleanup id Status.downloading 0 files fails).metaWritten = true
    ∧ (finalizeAndCleanup id Status.downloading 0 files fails).status = Status.finished
    ∧ (finalizeAndCleanup id Status.downloading 0 files fails).filename = id ++ ".mp4" := by
  unfold finalizeAndCleanup
  simp [h]

/-- Witness for C10: a job whose only artifact is the thumbnail. -/
theorem finishNoMedia_defaults_witness :
    (finalizeAndCleanup "a" Status.downloading 0 ["a.jpg"] (fun _ => false)).metaWritten = true
    ∧ (finalizeAndCleanup "a" Status.downloading 0 ["a.jpg"] (fun _ => false)).filename
        = "a" ++ ".mp4" :=
  ⟨(finishNoMedia_defaults "a" ["a.jpg"] (fun _ => false) (by decide)).1,
   (finishNoMedia_defaults "a" ["a.jpg"] (fun _ => false) (by decide)).2.2⟩

/-- C1: the metadata record is written iff the process exited with code 0
and the job was not cancelled; on a cancelled or error outcome no record is
written and cleanup leaves exactly the files that are not prefixed by the
id or whose removal failed (failures are swallowed by totality of the
cleanup) — in particular, when no removal fails, no file prefixed by the id
remains. -/
theorem finalize_metadata_iff (id : String) (c : Bool) (rc : Int) (files : List String)
    (fails : String → Bool) :
    ((finalizeAndCleanup id (if c then Status.cancelled else Status.downloading) rc files
        fails).metaWritten = true
      ↔ (c = false ∧ rc = 0))
    ∧ (c = false → rc = 0 →
        (id ++ ".json") ∈ (finalizeAndCleanup id (if c then Status.cancelled else
          Status.downloading) rc files fails).files
        ∧ (finalizeAndCleanup id (if c then Status.cancelled else Status.downloading) rc files
            fails).status = Status.finished)
    ∧ ((c = true ∨ rc ≠ 0) →
        (finalizeAndCleanup id (if c then Status.cancelled else Status.downloading) rc files
            fails).files
          = files.filter (fun f => !strPrefixed id f || fails f)
        ∧ ((∀ f, fails f = false) →
            ∀ f ∈ (finalizeAndCleanup id (if c then Status.cancelled else Status.downloading)
              rc files fails).files, strPrefixed id f = false)) := by
  have main :
      (finalizeAndCleanup id (if c then Status.cancelled else Status.downloading) rc files
          fails).metaWritten = true ↔ (c = false ∧ rc = 0) := by
    cases c
    · by_cases hrc : rc = 0
      · simp [finalizeAndCleanup, hrc]
      · simp [finalizeAndCleanup, hrc]
    · simp [finalizeAndCleanup]
  refine ⟨main, ?_, ?_⟩
  · intro hc hrc
    subst hc
    subst hrc
    constructor
    · simp [finalizeAndCleanup]
    · simp [finalizeAndCleanup]
  · intro hbad
    have hfiles :
        (finalizeAndCleanup id (if c then Status.cancelled else Status.downloading) rc files
            fails).files
          = files.filter (fun f => !strPrefixed id f || fails f) := by
      rcases hbad with hc | hrc
      · subst hc
        simp [finalizeAndCleanup]
      · cases c
        · simp [finalizeAndCleanup, hrc]
        · simp [finalizeAndCleanup]
    refine ⟨hfiles, ?_⟩
    intro hnone f hf
    rw [hfiles] at hf
    have := List.of_mem_filter hf
    simp [hnone f] at this
    exact this

/-- Witness for C1: a cancelled job with two own files and one foreign
file, no removal failures. -/
theorem finalize_metadata_iff_witness :
    ((finalizeAndCleanup "a" (if true then Status.cancelled else Status.downloading) 0
        ["a.part", "a.jpg", "b.mp4"] (fun _ => false)).metaWritten = true
      ↔ (true = false ∧ (0 : Int) = 0))
    ∧ (finalizeAndCleanup "a" (if true then Status.cancelled else Status.downloading) 0
        ["a.part", "a.jpg", "b.mp4"] (fun _ => false)).files
      = ["a.part", "a.jpg", "b.mp4"].filter (fun f => !strPrefixed "a" f || false) :=
  ⟨(finalize_metadata_iff "a" true 0 ["a.part", "a.jpg", "b.mp4"] (fun _ => false)).1,
   ((finalize_metadata_iff "a" true 0 ["a.part", "a.jpg", "b.mp4"] (fun _ => false)).2.2
     (Or.inl rfl)).1⟩

/-- C8: deleting a completed clip whose media file is locked retries
`os.remove` a fixed bounded number of times (the result depends only on
the first 20 attempts); if every attempt fails the call returns the
distinct failure outcome `False` (mapped by the handler to the dedicated
HTTP 500 "Could not delete file (locked)" response) with no file — in
particular not the metadata record — removed. -/
theorem delete_clip_bounded_retry (id : String) (files : List String) (fname : String)
    (locked : Nat → Bool) :
    (files.contains (id ++ ".json") = true → files.contains fname = true →
      (∀ i, i < 20 → locked i = true) →
      delete_clip id files fname locked = (false, files)
      ∧ deleteResponse (delete_clip id files fname locked).1
          = (500, "Could not delete file (locked)"))
    ∧ (∀ locked' : Nat → Bool, (∀ i, i < 20 → locked i = locked' i) →
        delete_clip id files fname locked = delete_clip id files fname locked') := by
  constructor
  · intro hjson hvid hl
    have hany : (List.range 20).any (fun i => !locked i) = false := by
      rw [List.any_eq_false]
      intro i hi
      rw [hl i (List.mem_range.mp hi)]
      decide
    have hres : delete_clip id files fname locked = (false, files) := by
      unfold delete_clip
      rw [hjson, hvid, hany]
      rfl
    exact ⟨hres, by rw [hres]; rfl⟩
  · intro locked' hagree
    have hany : (List.range 20).any (fun i => !locked i)
        = (List.range 20).any (fun i => !locked' i) := by
      by_cases hb : (List.range 20).any (fun i => !locked i) = true
      · obtain ⟨i, hi, hpi⟩ := List.any_eq_true.mp hb
        rw [hb]
        symm
        exact List.any_eq_true.mpr ⟨i, hi, by
          rw [← hagree i (List.mem_range.mp hi)]; exact hpi⟩
      · have hb' := Bool.eq_false_iff.mpr hb
        rw [hb']
        symm
        rw [List.any_eq_false]
        intro i hi
        have := (List.any_eq_false.mp hb') i hi
        rw [← hagree i (List.mem_range.mp hi)]
        exact this
    unfold delete_clip
    rw [hany]

/-- Witness for C8: the media file stays locked through all 20 attempts. -/
theorem delete_clip_bounded_retry_witness :
    delete_clip "a" ["a.json", "a.mp4"] "a.mp4" (fun _ => true)
      = (false, ["a.json", "a.mp4"])
    ∧ deleteResponse (delete_clip "a" ["a.json", "a.mp4"] "a.mp4" (fun _ => true)).1
      = (500, "Could not delete file (locked)") :=
  (delete_clip_bounded_retry "a" ["a.json", "a.mp4"] "a.mp4" (fun _ => true)).1
    (by decide) (by decide) (fun _ _ => rfl)

/-- C2 counterexample: a registry record that already carries the terminal
status `finished` is overwritten to `cancelled` by the `/api/cancel`
handler — the handler has no terminal-status guard, so a transition does
occur after a terminal status, contradicting "sets status to cancelled only
if the record is not already terminal". -/
theorem markCancelled_terminal_cex :
    statusOf [("a", { initialInfo "a" "t" with status := Status.finished })] "a"
      = some Status.finished
    ∧ statusOf
        (markCancelled [("a", { initialInfo "a" "t" with status := Status.finished })] "a") "a"
      = some Status.cancelled := by
  decide

/-- Evaluation of an association-list lookup on a cons cell. -/
theorem lookupInfo_cons (a k : String) (v : DownloadInfo) (l : List (String × DownloadInfo)) :
    List.lookup a ((k, v) :: l) = if a == k then some v else List.lookup a l := by
  cases h : a == k <;> simp [List.lookup, h]

/-- Evaluation of `markCancelled` on a cons cell. -/
theorem markCancelled_cons (k : String) (v : DownloadInfo)
    (rest : List (String × DownloadInfo)) (id : String) :
    markCancelled ((k, v) :: rest) id
      = (if k = id then (k, { v with status := Status.cancelled }) else (k, v))
          :: markCancelled rest id := by
  unfold markCancelled
  rw [List.map_cons]

/-- C2 amended: `markCancelled` sets the status of the record under the
given id to `cancelled` unconditionally whenever the id is present (even
when the record is already terminal); it is idempotent — two rapid cancel
calls are both accepted and leave the status `cancelled` exactly once — and
records under other ids are untouched. -/
theorem markCancelled_spec :
    ∀ (reg : List (String × DownloadInfo)) (id : String),
      statusOf (markCancelled reg id) id = (reg.lookup id).map (fun _ => Status.cancelled)
      ∧ markCancelled (markCancelled reg id) id = markCancelled reg id
      ∧ (∀ id', id' ≠ id → (markCancelled reg id).lookup id' = reg.lookup id') := by
  intro reg id
  refine ⟨?_, ?_, ?_⟩
  · induction reg with
    | nil => simp [markCancelled, statusOf]
    | cons p rest ih =>
      obtain ⟨k, v⟩ := p
      by_cases hp : k = id
      · subst hp
        simp [markCancelled_cons, statusOf, lookupInfo_cons]
      · have hbeq : (id == k) = false := beq_false_of_ne fun h => hp h.symm
        simp only [markCancelled_cons, if_neg hp]
        unfold statusOf at *
        rw [lookupInfo_cons, lookupInfo_cons, hbeq]
        simpa using ih
  · induction reg with
    | nil => rfl
    | cons p rest ih =>
      obtain ⟨k, v⟩ := p
      by_cases hp : k = id
      · subst hp
        simp [markCancelled_cons, ih]
      · simp [markCancelled_cons, hp, ih]
  · intro id' hne
    induction reg with
    | nil => rfl
    | cons p rest ih =>
      obtain ⟨k, v⟩ := p
      rw [markCancelled_cons]
      by_cases hp : k = id
      · have hbeq : (id' == k) = false := by
          rw [hp]
          exact beq_false_of_ne hne
        rw [if_pos hp, lookupInfo_cons, lookupInfo_cons, hbeq]
        simpa using ih
      · rw [if_neg hp, lookupInfo_cons, lookupInfo_cons]
        cases h : (id' == k) <;> simp [h, ih]

/-- Witness for C2's amended theorem on a two-entry registry. -/
theorem markCancelled_spec_witness :
    (markCancelled [("a", initialInfo "a" "t"), ("b", initialInfo "b" "u")] "a").lookup "b"
      = [("a", initialInfo "a" "t"), ("b", initialInfo "b" "u")].lookup "b" :=
  (markCancelled_spec [("a", initialInfo "a" "t"), ("b", initialInfo "b" "u")] "a").2.2 "b"
    (by decide)

/-- C7: a line matching the standard fetch-progress regex updates the
record with the matched percent plus a `%` suffix, the size, the trimmed
speed, and the eta token verbatim; a line matching neither shape (no
standard match, no frame-count marker) leaves the record unchanged. -/
theorem fetchProgress_update (total : PyF) (line : String) (r : DownloadInfo) :
    (∀ p sz sp e : String, progressSearchS line = some (p, sz, sp, e) →
      processLine total line r
        = { r with percent := p ++ "%", size := some sz,
                   speed := strOf (pyStrip sp.data), eta := e })
    ∧ (progressSearchS line = none → containsFrame line = false →
        processLine total line r = r) := by
  constructor
  · intro p sz sp e h
    obtain ⟨⟨a, b, c, d⟩, hm, heq⟩ := Option.map_eq_some'.mp h
    simp only [Prod.mk.injEq] at heq
    obtain ⟨hp2, hsz, hsp, he⟩ := heq
    subst hp2
    subst hsz
    subst hsp
    subst he
    simp only [processLine]
    rw [hm]
    rfl
  · intro h hf
    have hm : progressSearch (pyStrip line.data) = none := Option.map_eq_none'.mp h
    have hcf : containsSub "frame=".data (pyStrip line.data) = false := hf
    simp only [processLine]
    rw [hm, hcf]
    rfl

/-- Witness for C7 at a concrete fetch-progress line and a concrete
unrecognized line. -/
theorem fetchProgress_update_witness :
    processLine ⟨0, 1⟩ "[download]  12.5% of ~10.00MiB at  1.00MiB/s ETA 00:42"
        (initialInfo "j" "t")
      = { initialInfo "j" "t" with
            percent := ("12.5" ++ "%"), size := some "10.00MiB",
            speed := strOf (pyStrip "1.00MiB/s".data), eta := "00:42" }
    ∧ processLine ⟨0, 1⟩ "[merger] Merging formats" (initialInfo "j" "t")
      = initialInfo "j" "t" :=
  ⟨(fetchProgress_update ⟨0, 1⟩ "[download]  12.5% of ~10.00MiB at  1.00MiB/s ETA 00:42"
      (initialInfo "j" "t")).1 "12.5" "10.00MiB" "1.00MiB/s" "00:42" (by decide),
   (fetchProgress_update ⟨0, 1⟩ "[merger] Merging formats" (initialInfo "j" "t")).2
      (by decide) (by decide)⟩

/-- C6 counterexample: the line
`"[download] 50% of ~10MiB at 1MiB/s ETA 00:10 frame="` contains the
frame-count marker and its `FFMPEG_REGEX` sub-match fails, yet the percent
field becomes `"50%"` (not `"indeterminate"`) and the size field changes —
the standard fetch-progress branch is checked first and wins. -/
theorem frameLine_submatch_cex :
    containsFrame "[download] 50% of ~10MiB at 1MiB/s ETA 00:10 frame=" = true
    ∧ ffmpegSearchS "[download] 50% of ~10MiB at 1MiB/s ETA 00:10 frame=" = none
    ∧ (processLine ⟨60, 1⟩ "[download] 50% of ~10MiB at 1MiB/s ETA 00:10 frame="
        (initialInfo "j" "t")).percent = "50%"
    ∧ (processLine ⟨60, 1⟩ "[download] 50% of ~10MiB at 1MiB/s ETA 00:10 frame="
        (initialInfo "j" "t")).size = some "10MiB"
    ∧ (initialInfo "j" "t").size = none := by
  decide

/-- C6 amended: for every output line that does not match the standard
fetch-progress regex, contains the frame-count marker, and whose
`FFMPEG_REGEX` sub-match fails, the record's percent is set to
`"indeterminate"` and the size, speed, and eta fields are left unchanged. -/
theorem frameLine_submatch_failure (total : PyF) (line : String) (r : DownloadInfo)
    (h1 : progressSearchS line = none) (h2 : containsFrame line = true)
    (h3 : ffmpegSearchS line = none) :
    processLine total line r = { r with percent := "indeterminate" } := by
  have hm : progressSearch (pyStrip line.data) = none := Option.map_eq_none'.mp h1
  have hcf : containsSub "frame=".data (pyStrip line.data) = true := h2
  have hfm : ffmpegSearch (pyStrip line.data) = none := Option.map_eq_none'.mp h3
  simp only [processLine]
  rw [hm, hcf, hfm]
  rfl

/-- Witness for C6's amended theorem at a concrete line. -/
theorem frameLine_submatch_failure_witness :
    processLine ⟨60, 1⟩ "frame=  100 fps=25 q=2.0" (initialInfo "j" "t")
      = { initialInfo "j" "t" with percent := "indeterminate" } :=
  frameLine_submatch_failure ⟨60, 1⟩ "frame=  100 fps=25 q=2.0" (initialInfo "j" "t")
    (by decide) (by decide) (by decide)

/-- C3: for every line the loop classifies as merge/transcode progress
(no standard fetch match, frame marker present) whose sub-match succeeds:
when `expectedDurationSeconds > 0` the reported percent is
`elapsed / expected * 100` clamped to 100, one-decimal formatted, with a
`%` suffix (the concrete spec example: elapsed `00:00:30` over duration 60
yields `"50.0%"`); when `expectedDurationSeconds = 0` the reported percent
is the literal `"indeterminate"`. -/
theorem mergePercent_spec :
    (∀ (total : PyF) (line : String) (r : DownloadInfo) (sz t sp : String),
      0 < total.den →
      progressSearchS line = none →
      containsFrame line = true →
      ffmpegSearchS line = some (sz, t, sp) →
      (0 < total.toRat →
          (processLine total line r).percent
            = strOf (PyF.fmtOneDec ((parse_time_str t).pct total).clamp100) ++ "%"
          ∧ ((parse_time_str t).pct total).clamp100.toRat
              = min ((parse_time_str t).toRat / total.toRat * 100) 100)
      ∧ (total.toRat = 0 → (processLine total line r).percent = "indeterminate"))
    ∧ (processLine ⟨60, 1⟩
        "frame=  100 fps=25 q=1.0 size=    1024kB time=00:00:30 bitrate=5505.4kbits/s speed=1.73x"
        (initialInfo "j" "t")).percent = "50.0%" := by
  constructor
  · intro total line r sz t sp hden hps hcf hfs
    have hm : progressSearch (pyStrip line.data) = none := Option.map_eq_none'.mp hps
    obtain ⟨⟨a, b, c⟩, hfm, heq⟩ := Option.map_eq_some'.mp hfs
    simp only [Prod.mk.injEq] at heq
    obtain ⟨hsz, ht, hsp⟩ := heq
    subst hsz
    subst ht
    subst hsp
    have hcf' : containsSub "frame=".data (pyStrip line.data) = true := hcf
    have hred : processLine total line r =
        { r with
            percent :=
              if total.pos then
                strOf (PyF.fmtOneDec ((parse_time_str (strOf b)).pct total).clamp100) ++ "%"
              else "indeterminate",
            size := some (strOf a), speed := strOf (pyStrip c) ++ "x",
            eta := "Processing" } := by
      simp only [processLine]
      rw [hm, hcf', hfm]
      rfl
    constructor
    · intro hpos
      have hposb : total.pos = true := (PyF.pos_iff total hden).mpr hpos
      constructor
      · rw [hred, hposb]
        rfl
      · have hnum : 0 < total.num := by
          have h' := hposb
          unfold PyF.pos at h'
          exact of_decide_eq_true h'
        have hpden : 0 < ((parse_time_str (strOf b)).pct total).den := by
          unfold PyF.pct
          have : 0 < total.num.toNat := by omega
          exact Nat.mul_pos (parse_time_str_den_pos _) this
        rw [PyF.clamp100_toRat _ hpden,
          PyF.pct_toRat _ _ (parse_time_str_den_pos _) hden hnum]
    · intro hzero
      have hposb : total.pos = false := by
        cases hb : total.pos
        · rfl
        · exfalso
          have h' := (PyF.pos_iff total hden).mp hb
          rw [hzero] at h'
          exact lt_irrefl 0 h'
      rw [hred, hposb]
      rfl
  · decide

/-- Witness for C3 at the spec's own example: duration 60 seconds, elapsed
`00:00:30`. -/
theorem mergePercent_spec_witness :
    ((processLine ⟨60, 1⟩
        "frame=  100 fps=25 q=1.0 size=    1024kB time=00:00:30 bitrate=5505.4kbits/s speed=1.73x"
        (initialInfo "j" "t")).percent
      = strOf (PyF.fmtOneDec ((parse_time_str "00:00:30").pct ⟨60, 1⟩).clamp100) ++ "%")
    ∧ ((parse_time_str "00:00:30").pct ⟨60, 1⟩).clamp100.toRat
      = min ((parse_time_str "00:00:30").toRat / (PyF.mk 60 1).toRat * 100) 100 :=
  (mergePercent_spec.1 ⟨60, 1⟩
    "frame=  100 fps=25 q=1.0 size=    1024kB time=00:00:30 bitrate=5505.4kbits/s speed=1.73x"
    (initialInfo "j" "t") "1024kB" "00:00:30" "1.73x"
    (by decide) (by decide) (by decide) (by decide)).1
    (by norm_num [PyF.toRat])
